import Mathlib

/-!
# aws-fsx-openzfs-csi-driver : `pkg/driver/driver.go`

A shallow embedding of the `Driver` type of `pkg/driver/driver.go` with its
constructor `NewDriver` and its methods `Run` and `Stop`.

Go statements become explicit state passing over a `World` that records what
the process did to the outside: the records written through `klog`, the calls
made into the `net`, `grpc` and `csi` packages (in program order), and the
`grpc.Server` objects that were allocated.  A `*grpc.Server` is an index into
that list of objects, `nil` is `none`.

Two packages of the repository are used by `driver.go` but are not part of the
sources at hand: `pkg/util` (`ParseEndpoint`) and `pkg/driver/internal`
(`InFlight`).  Both are modelled from the written specification and marked so.
-/

namespace FsxCsi

/-! ## Values -/

/-- Go `error` value that is not nil, identified by its message. -/
structure GoError where
  msg : String
  deriving DecidableEq, Repr

/-- Result of `net.Listen`: the listener together with the network and address it is bound to. -/
structure Listener where
  network : String
  address : String
  deriving DecidableEq, Repr

/-- Value returned by `listener.Addr()`. -/
structure Addr where
  network : String
  address : String
  deriving DecidableEq, Repr

/-- Method `Addr` of a listener. -/
def Listener.Addr (l : Listener) : Addr :=
  ⟨l.network, l.address⟩

/-- Severity of a `klog` record. -/
inductive Severity where
  | info
  | error
  | fatal
  deriving DecidableEq, Repr

/-- Argument handed to a `klog` formatting call. -/
inductive LogArg where
  | err (e : GoError)
  | addr (a : Addr)
  deriving DecidableEq, Repr

/-- One record written through `klog`: severity, format string and the arguments to be formatted. -/
structure LogRecord where
  severity : Severity
  format : String
  args : List LogArg
  deriving DecidableEq, Repr

/-- The three CSI service roles of the generated `csi` package. -/
inductive Role where
  | identity
  | controller
  | node
  deriving DecidableEq, Repr

/-- The unary interceptors this program defines: only the closure `logErr` of `Run`. -/
inductive UnaryInterceptor where
  | logErr
  deriving DecidableEq, Repr

/-- A `grpc.ServerOption` as built in this program. -/
inductive ServerOption where
  | unaryInterceptor (i : UnaryInterceptor)
  deriving DecidableEq, Repr

/-- State of one `grpc.Server` object: the interceptors installed from its options, the
services registered on it (role and address of the implementation), and whether it was stopped. -/
structure GrpcServer where
  interceptors : List UnaryInterceptor
  services : List (Role × Nat)
  stopped : Bool
  deriving DecidableEq, Repr

/-- Calls that leave the package, in the vocabulary of `net`, `grpc` and `csi`. -/
inductive Call where
  | listen (network address : String)
  | newServer (srv : Nat) (opts : List ServerOption)
  | register (role : Role) (srv : Nat) (impl : Nat)
  | serve (srv : Nat) (lis : Listener)
  | stop (srv : Nat)
  | gracefulStop (srv : Nat)
  deriving DecidableEq, Repr

/-- Everything outside the `Driver` struct that the code reads or writes. -/
structure World where
  klog : List LogRecord
  calls : List Call
  servers : List GrpcServer
  deriving DecidableEq, Repr

/-- A process that has done nothing yet. -/
def World.init : World :=
  ⟨[], [], []⟩

/-! ## `klog` -/

/-- Call `klog.Infof(format, args...)`. -/
def klogInfof (format : String) (args : List LogArg) (w : World) : World :=
  { w with klog := w.klog ++ [⟨Severity.info, format, args⟩] }

/-- Call `klog.Errorf(format, args...)`. -/
def klogErrorf (format : String) (args : List LogArg) (w : World) : World :=
  { w with klog := w.klog ++ [⟨Severity.error, format, args⟩] }

/-! ## `pkg/driver/internal` : the in-flight registry -/

/-- Modelled from the spec: the type `internal.InFlight` (package `pkg/driver/internal` is
not among the sources).  The spec calls it the in-flight set, a mapping from operation key to
an "in progress" marker; it is kept as the list of keys that carry the marker. -/
structure InFlight where
  keys : List String
  deriving DecidableEq, Repr

/-- Modelled from the spec: `internal.NewInFlight`, which is not among the sources; a new
process starts with an empty set. -/
def NewInFlight : InFlight :=
  ⟨[]⟩

/-- Membership of a key in the in-flight set. -/
def InFlight.present (db : InFlight) (key : String) : Bool :=
  decide (key ∈ db.keys)

/-- Modelled from the spec: `InFlight.Insert`, which is not among the sources.  "Returns
`true` and records the key as in-flight if it was not already present; returns `false`
(claim denied) if it was already present." -/
def InFlight.Insert (db : InFlight) (key : String) : Bool × InFlight :=
  if key ∈ db.keys then (false, db) else (true, ⟨key :: db.keys⟩)

/-- Modelled from the spec: `InFlight.Delete`, which is not among the sources.
"Unconditionally removes `key` from the in-flight set."  It has no result, so it has no
way to report an error. -/
def InFlight.Delete (db : InFlight) (key : String) : InFlight :=
  ⟨db.keys.filter (fun k => decide (k ≠ key))⟩

/-- One operation on the registry, for talking about sequences of calls. -/
inductive RegistryOp where
  | insert (key : String)
  | delete (key : String)
  deriving DecidableEq, Repr

/-- Effect of one registry operation on the registry (the result of an `Insert` is dropped). -/
def InFlight.step (db : InFlight) : RegistryOp → InFlight
  | RegistryOp.insert key => (db.Insert key).2
  | RegistryOp.delete key => db.Delete key

/-- Effect of a sequence of registry operations, first operation first. -/
def InFlight.run (db : InFlight) (ops : List RegistryOp) : InFlight :=
  ops.foldl InFlight.step db

/-! ## `pkg/util` : the endpoint parser -/

/-- The separator between scheme and address in a bind target `scheme://address`. -/
def endpointSep : List Char :=
  [':', '/', '/']

/-- Whether `p` is an initial segment of `l`. -/
def startsWith : List Char → List Char → Bool
  | [], _ => true
  | _ :: _, [] => false
  | a :: p, b :: l => a == b && startsWith p l

/-- Cut `l` at the first occurrence of `sep`: the part before it and the part after it. -/
def cutAt (sep : List Char) : List Char → Option (List Char × List Char)
  | [] => if sep = [] then some ([], []) else none
  | c :: cs =>
    if startsWith sep (c :: cs) then some ([], (c :: cs).drop sep.length)
    else match cutAt sep cs with
      | none => none
      | some (before, after) => some (c :: before, after)

/-- The schemes the spec names as recognised: the domain-socket form and the
network-socket form. -/
def recognisedSchemes : List String :=
  ["unix", "tcp"]

/-- The `InvalidEndpoint` condition of the spec, as an error value. -/
def InvalidEndpoint : GoError :=
  ⟨"InvalidEndpoint"⟩

/-- Modelled from the spec: `util.ParseEndpoint` (package `pkg/util` is not among the
sources).  "Parses the endpoint string into (scheme, address).  Fails with an
`InvalidEndpoint` condition if the string cannot be split into exactly those two parts or
the scheme is unrecognized."  The string is cut at its first separator; a separator left
in the remainder means more than two parts. -/
def ParseEndpoint (endpoint : String) : Except GoError (String × String) :=
  match cutAt endpointSep endpoint.data with
  | none => Except.error InvalidEndpoint
  | some (scheme, addr) =>
    if (cutAt endpointSep addr).isSome then Except.error InvalidEndpoint
    else if String.mk scheme ∈ recognisedSchemes then Except.ok (String.mk scheme, String.mk addr)
    else Except.error InvalidEndpoint

/-! ## Collaborators of the `Driver` -/

/-- Value of the interface type `cloud.Cloud`; the client is built by `cloud.NewCloud`
from a region and is never inspected by this file. -/
structure Cloud where
  region : String
  deriving DecidableEq, Repr

/-- Value of the interface type `Mounter`, built by `newNodeMounter`; never inspected by
this file. -/
structure Mounter where
  handle : Nat
  deriving DecidableEq, Repr

/-- What `cloud.NewMetadata` hands back: the region and the instance id of the node. -/
structure Metadata where
  region : String
  instanceID : String
  deriving DecidableEq, Repr

/-- Method `GetRegion` of the metadata service. -/
def Metadata.GetRegion (m : Metadata) : String :=
  m.region

/-- Method `GetInstanceID` of the metadata service. -/
def Metadata.GetInstanceID (m : Metadata) : String :=
  m.instanceID

/-- The functions of other packages that `driver.go` calls and whose answer depends on
the machine the process runs on. -/
structure Env where
  /-- Answer of `cloud.NewMetadata()`. -/
  newMetadata : Except GoError Metadata
  /-- Function `cloud.NewCloud`. -/
  newCloud : String → Cloud
  /-- Function `newNodeMounter`. -/
  newNodeMounter : Mounter
  /-- Function `util.ParseEndpoint`. -/
  parseEndpoint : String → Except GoError (String × String)
  /-- Answer of `net.Listen(network, address)`. -/
  listen : String → String → Except GoError Listener
  /-- Value with which `(*grpc.Server).Serve` comes back for a server and a listener;
  `none` is a nil error. -/
  serve : GrpcServer → Listener → Option GoError

/-! ## `type Driver struct` -/

/-- The struct `Driver`.  Field `srv` is a `*grpc.Server`: `none` is nil, `some p` points
at the server object `p` of the `World`. -/
structure Driver where
  endpoint : String
  srv : Option Nat
  cloud : Cloud
  inFlight : InFlight
  nodeID : String
  mounter : Mounter
  deriving DecidableEq, Repr

/-- Function `NewDriver`.  `klog.Fatalln` ends the process, which is the result `none`.
The struct literal names no `srv`, so the field holds its zero value nil. -/
def NewDriver (env : Env) (endpoint : String) : Option Driver :=
  match env.newMetadata with
  | Except.error _ => none
  | Except.ok metadata =>
    let region := metadata.GetRegion
    let cloud := env.newCloud region
    let inFlight := NewInFlight
    some
      { endpoint := endpoint
        srv := none
        cloud := cloud
        inFlight := inFlight
        nodeID := metadata.GetInstanceID
        mounter := env.newNodeMounter }

/-! ## `grpc` and `csi` calls -/

/-- Call `net.Listen(network, address)`: the attempt is recorded, the answer comes from
the environment. -/
def netListen (env : Env) (network address : String) (w : World) :
    Except GoError Listener × World :=
  (env.listen network address, { w with calls := w.calls ++ [Call.listen network address] })

/-- The interceptors a list of server options installs. -/
def interceptorsOf : List ServerOption → List UnaryInterceptor
  | [] => []
  | ServerOption.unaryInterceptor i :: rest => i :: interceptorsOf rest

/-- Call `grpc.NewServer(opts...)`: a new server object with the options applied, no
service registered, not stopped.  The result is the pointer to it. -/
def grpcNewServer (opts : List ServerOption) (w : World) : Nat × World :=
  (w.servers.length,
    { w with
      calls := w.calls ++ [Call.newServer w.servers.length opts]
      servers := w.servers ++ [⟨interceptorsOf opts, [], false⟩] })

/-- Apply `f` to the server object behind pointer `p`. -/
def modifyServer (p : Nat) (f : GrpcServer → GrpcServer) (servers : List GrpcServer) :
    List GrpcServer :=
  match servers[p]? with
  | none => servers
  | some s => servers.set p (f s)

/-- Calls `csi.RegisterIdentityServer(srv, impl)`, `csi.RegisterControllerServer(srv, impl)`
and `csi.RegisterNodeServer(srv, impl)`, told apart by `role`: the service is added to the
server with `impl` as its implementation. -/
def csiRegister (role : Role) (srv : Nat) (impl : Nat) (w : World) : World :=
  { w with
    calls := w.calls ++ [Call.register role srv impl]
    servers := modifyServer srv (fun s => { s with services := s.services ++ [(role, impl)] })
      w.servers }

/-- Call `srv.Serve(lis)`.  It blocks until the server is stopped or the transport fails;
the value it then returns is the one the environment gives for the server as it stands. -/
def grpcServe (env : Env) (srv : Nat) (lis : Listener) (w : World) : Option GoError × World :=
  (match w.servers[srv]? with
    | none => none
    | some s => env.serve s lis,
    { w with calls := w.calls ++ [Call.serve srv lis] })

/-- A Go panic. -/
inductive Panic where
  | nilDereference
  deriving DecidableEq, Repr

/-- Call `srv.Stop()` on a `*grpc.Server`.  `(*grpc.Server).Stop` reads the fields of its
receiver, so on a nil pointer it panics with a nil pointer dereference; otherwise the
server is stopped at once. -/
def grpcStop (srv : Option Nat) (w : World) : Except Panic Unit × World :=
  match srv with
  | none => (Except.error Panic.nilDereference, w)
  | some p =>
    (Except.ok (),
      { w with
        calls := w.calls ++ [Call.stop p]
        servers := modifyServer p (fun s => { s with stopped := true }) w.servers })

/-! ## `Run` and `Stop` -/

/-- A `grpc.UnaryHandler`: from context and request to response and error (`none` is a nil
error), with whatever it does to the world. -/
abbrev UnaryHandler (Ctx Req Resp : Type) : Type :=
  Ctx → Req → World → (Resp × Option GoError) × World

/-- The closure `logErr` of `Run`. -/
def logErr {Ctx Req Resp Info : Type} (ctx : Ctx) (req : Req) (_info : Info)
    (handler : UnaryHandler Ctx Req Resp) (w : World) : (Resp × Option GoError) × World :=
  match handler ctx req w with
  | ((resp, err), w1) =>
    match err with
    | some e => ((resp, err), klogErrorf "GRPC error: %v" [LogArg.err e] w1)
    | none => ((resp, err), w1)

/-- The function an installed interceptor stands for. -/
def applyInterceptor {Ctx Req Resp Info : Type} (i : UnaryInterceptor) (ctx : Ctx) (req : Req)
    (info : Info) (handler : UnaryHandler Ctx Req Resp) (w : World) :
    (Resp × Option GoError) × World :=
  match i with
  | UnaryInterceptor.logErr => logErr ctx req info handler w

/-- Method `(d *Driver) Run`.  `self` is the pointer `d`, `d` the struct behind it.  The
result is the returned error (`none` is nil), the struct afterwards and the world
afterwards. -/
def Run (env : Env) (self : Nat) (d : Driver) (w : World) : Option GoError × Driver × World :=
  match env.parseEndpoint d.endpoint with
  | Except.error err => (some err, d, w)
  | Except.ok (scheme, addr) =>
    match netListen env scheme addr w with
    | (Except.error err, w1) => (some err, d, w1)
    | (Except.ok listener, w1) =>
      let opts := [ServerOption.unaryInterceptor UnaryInterceptor.logErr]
      let (srv, w2) := grpcNewServer opts w1
      let d1 := { d with srv := some srv }
      let w3 := csiRegister Role.identity srv self w2
      let w4 := csiRegister Role.controller srv self w3
      let w5 := csiRegister Role.node srv self w4
      let w6 := klogInfof "Listening for connections on address: %#v"
        [LogArg.addr listener.Addr] w5
      let (err, w7) := grpcServe env srv listener w6
      (err, d1, w7)

/-- Method `(d *Driver) Stop`.  The result is whether the call came back or panicked, the
struct afterwards and the world afterwards. -/
def Stop (d : Driver) (w : World) : Except Panic Unit × Driver × World :=
  let w1 := klogInfof "Stopping server" [] w
  let (r, w2) := grpcStop d.srv w1
  (r, d, w2)

/-! ## Sample inputs -/

/-- A machine on which metadata is available, `/tmp/csi.sock` can be bound and every other
address is taken, and a served server comes back with a nil error unless it carries no
interceptor. -/
def sampleEnv : Env where
  newMetadata := Except.ok ⟨"us-east-1", "i-0123456789"⟩
  newCloud := fun region => ⟨region⟩
  newNodeMounter := ⟨0⟩
  parseEndpoint := ParseEndpoint
  listen := fun network address =>
    if address = "/tmp/csi.sock" then Except.ok ⟨network, address⟩
    else Except.error ⟨"bind: address already in use"⟩
  serve := fun s _ => if s.interceptors = [] then some ⟨"no interceptor"⟩ else none

/-- The struct `NewDriver` builds on the sample machine for the given endpoint. -/
def sampleDriver (endpoint : String) : Driver where
  endpoint := endpoint
  srv := none
  cloud := ⟨"us-east-1"⟩
  inFlight := ⟨[]⟩
  nodeID := "i-0123456789"
  mounter := ⟨0⟩

/-- A handler that fails with `boom` on the request `0` and answers every other request
with its successor, writing one record of its own either way. -/
def sampleHandler : UnaryHandler Unit Nat Nat :=
  fun _ req w =>
    ((req + 1, if req = 0 then some ⟨"boom"⟩ else none), klogInfof "handling" [] w)

/-! ## Helper lemmas -/

theorem modifyServer_append_length (f : GrpcServer → GrpcServer) (servers : List GrpcServer)
    (s : GrpcServer) :
    modifyServer servers.length f (servers ++ [s]) = servers ++ [f s] := by
  simp [modifyServer]

theorem modifyServer_getElem (p : Nat) (f : GrpcServer → GrpcServer)
    (servers : List GrpcServer) (s : GrpcServer) (h : servers[p]? = some s) :
    (modifyServer p f servers)[p]? = some (f s) := by
  have hlt : p < servers.length := by
    rcases Nat.lt_or_ge p servers.length with hlt | hge
    · exact hlt
    · rw [List.getElem?_eq_none hge] at h
      cases h
  simp [modifyServer, h, List.getElem?_set, hlt]

theorem modifyServer_getElem_ne (p q : Nat) (f : GrpcServer → GrpcServer)
    (servers : List GrpcServer) (h : q ≠ p) :
    (modifyServer p f servers)[q]? = servers[q]? := by
  unfold modifyServer
  cases hp : servers[p]? with
  | none => rfl
  | some s => simp [List.getElem?_set, Ne.symm h]

/-! ## `Run` -/

/-- C1: when `ParseEndpoint` rejects the endpoint of the Driver, `Run` returns exactly the
error the parser produced and nothing else has happened: the Driver struct (so its `srv`
field) is what it was and the world is what it was, so no call to `net.Listen`, no
`grpc.NewServer` and no registration of a service was made. -/
theorem Run_parse_error (env : Env) (self : Nat) (d : Driver) (w : World) (e : GoError)
    (hparse : env.parseEndpoint d.endpoint = Except.error e) :
    Run env self d w = (some e, d, w) ∧
      (Run env self d w).2.1.srv = d.srv ∧
      (Run env self d w).2.2.calls = w.calls ∧
      (Run env self d w).2.2.servers = w.servers := by
  have h : Run env self d w = (some e, d, w) := by
    simp [Run, hparse]
  simp [h]

/-- C1 on the sample machine, for the endpoint `bogus-no-scheme`. -/
theorem Run_parse_error_witness :
    sampleEnv.parseEndpoint (sampleDriver "bogus-no-scheme").endpoint
        = Except.error InvalidEndpoint ∧
      Run sampleEnv 1 (sampleDriver "bogus-no-scheme") World.init
        = (some InvalidEndpoint, sampleDriver "bogus-no-scheme", World.init) :=
  ⟨rfl, (Run_parse_error sampleEnv 1 (sampleDriver "bogus-no-scheme") World.init
    InvalidEndpoint rfl).1⟩

/-- C2: when the endpoint parses to `(scheme, addr)` and `net.Listen(scheme, addr)` fails,
`Run` returns exactly the listen error; the only call it made is that one listen attempt,
the Driver struct (so its `srv` field) is unchanged, no server object was created, no
interceptor installed and no service registered. -/
theorem Run_listen_error (env : Env) (self : Nat) (d : Driver) (w : World)
    (scheme addr : String) (e : GoError)
    (hparse : env.parseEndpoint d.endpoint = Except.ok (scheme, addr))
    (hlisten : env.listen scheme addr = Except.error e) :
    Run env self d w
        = (some e, d, { w with calls := w.calls ++ [Call.listen scheme addr] }) ∧
      (Run env self d w).2.1.srv = d.srv ∧
      (Run env self d w).2.2.calls = w.calls ++ [Call.listen scheme addr] ∧
      (Run env self d w).2.2.servers = w.servers ∧
      (Run env self d w).2.2.klog = w.klog := by
  have h : Run env self d w
      = (some e, d, { w with calls := w.calls ++ [Call.listen scheme addr] }) := by
    simp [Run, hparse, netListen, hlisten]
  simp [h]

/-- C2 on the sample machine, for an endpoint whose address is taken. -/
theorem Run_listen_error_witness :
    sampleEnv.parseEndpoint (sampleDriver "tcp://0.0.0.0:10000").endpoint
        = Except.ok ("tcp", "0.0.0.0:10000") ∧
      sampleEnv.listen "tcp" "0.0.0.0:10000" = Except.error ⟨"bind: address already in use"⟩ ∧
      Run sampleEnv 1 (sampleDriver "tcp://0.0.0.0:10000") World.init
        = (some ⟨"bind: address already in use"⟩, sampleDriver "tcp://0.0.0.0:10000",
            ⟨[], [Call.listen "tcp" "0.0.0.0:10000"], []⟩) :=
  ⟨rfl, rfl, (Run_listen_error sampleEnv 1 (sampleDriver "tcp://0.0.0.0:10000") World.init
    "tcp" "0.0.0.0:10000" ⟨"bind: address already in use"⟩ rfl rfl).1⟩

/-- C5: when the endpoint parses to `(scheme, addr)` and `net.Listen(scheme, addr)` gives
a listener, `Run` creates one new server whose only interceptor is `logErr`, registers the
identity, controller and node services on that server with the Driver itself (`self`) as
implementation, does all of that before the call to `Serve`, serves on the listener it
opened, stores the server in `srv`, and returns exactly what `Serve` returned. -/
theorem Run_serves (env : Env) (self : Nat) (d : Driver) (w : World)
    (scheme addr : String) (lis : Listener)
    (hparse : env.parseEndpoint d.endpoint = Except.ok (scheme, addr))
    (hlisten : env.listen scheme addr = Except.ok lis) :
    Run env self d w =
      (env.serve
          ⟨[UnaryInterceptor.logErr],
            [(Role.identity, self), (Role.controller, self), (Role.node, self)], false⟩ lis,
        { d with srv := some w.servers.length },
        { klog := w.klog ++ [⟨Severity.info, "Listening for connections on address: %#v",
            [LogArg.addr lis.Addr]⟩]
          calls := w.calls ++
            [Call.listen scheme addr,
              Call.newServer w.servers.length
                [ServerOption.unaryInterceptor UnaryInterceptor.logErr],
              Call.register Role.identity w.servers.length self,
              Call.register Role.controller w.servers.length self,
              Call.register Role.node w.servers.length self,
              Call.serve w.servers.length lis]
          servers := w.servers ++
            [⟨[UnaryInterceptor.logErr],
              [(Role.identity, self), (Role.controller, self), (Role.node, self)],
              false⟩] }) := by
  simp [Run, hparse, netListen, hlisten, grpcNewServer, csiRegister, klogInfof, grpcServe,
    interceptorsOf, modifyServer_append_length]

/-- C5 on the sample machine, for the endpoint `unix:///tmp/csi.sock` and the Driver at address 7. -/
theorem Run_serves_witness :
    sampleEnv.parseEndpoint (sampleDriver "unix:///tmp/csi.sock").endpoint
        = Except.ok ("unix", "/tmp/csi.sock") ∧
      sampleEnv.listen "unix" "/tmp/csi.sock" = Except.ok ⟨"unix", "/tmp/csi.sock"⟩ ∧
      Run sampleEnv 7 (sampleDriver "unix:///tmp/csi.sock") World.init =
        (none,
          { sampleDriver "unix:///tmp/csi.sock" with srv := some 0 },
          { klog := [⟨Severity.info, "Listening for connections on address: %#v",
              [LogArg.addr ⟨"unix", "/tmp/csi.sock"⟩]⟩]
            calls :=
              [Call.listen "unix" "/tmp/csi.sock",
                Call.newServer 0 [ServerOption.unaryInterceptor UnaryInterceptor.logErr],
                Call.register Role.identity 0 7,
                Call.register Role.controller 0 7,
                Call.register Role.node 0 7,
                Call.serve 0 ⟨"unix", "/tmp/csi.sock"⟩]
            servers :=
              [⟨[UnaryInterceptor.logErr],
                [(Role.identity, 7), (Role.controller, 7), (Role.node, 7)], false⟩] }) :=
  ⟨rfl, rfl, Run_serves sampleEnv 7 (sampleDriver "unix:///tmp/csi.sock") World.init
    "unix" "/tmp/csi.sock" ⟨"unix", "/tmp/csi.sock"⟩ rfl rfl⟩

/-! ## The interception stage -/

/-- C3: for every context, request, call info and handler, `logErr` (and so every
interceptor `Run` installs) returns exactly the pair of response and error the handler
returned: the response is the handler's whether or not there is an error, and the error is
the handler's, nil or not. -/
theorem logErr_returns_handler_result {Ctx Req Resp Info : Type} (ctx : Ctx) (req : Req)
    (info : Info) (handler : UnaryHandler Ctx Req Resp) (w : World) :
    (logErr ctx req info handler w).1 = (handler ctx req w).1 ∧
      ∀ i : UnaryInterceptor,
        (applyInterceptor i ctx req info handler w).1 = (handler ctx req w).1 := by
  have h : (logErr ctx req info handler w).1 = (handler ctx req w).1 := by
    unfold logErr
    rcases hh : handler ctx req w with ⟨⟨resp, err⟩, w1⟩
    cases err <;> rfl
  refine ⟨h, ?_⟩
  intro i
  cases i
  exact h

/-- C4: `logErr` runs the handler once, on the context and request it was given and in
the world it was called in; what it leaves behind is what that one run left behind, plus
one error record carrying the handler's error when that error is not nil, and nothing
more when it is nil.  So a record is written exactly when the handler failed. -/
theorem logErr_logs_iff_error {Ctx Req Resp Info : Type} (ctx : Ctx) (req : Req)
    (info : Info) (handler : UnaryHandler Ctx Req Resp) (w : World) :
    logErr ctx req info handler w =
        ((handler ctx req w).1,
          { (handler ctx req w).2 with
            klog := (handler ctx req w).2.klog ++
              (match (handler ctx req w).1.2 with
                | none => []
                | some e => [⟨Severity.error, "GRPC error: %v", [LogArg.err e]⟩]) }) ∧
      ((logErr ctx req info handler w).2.klog.length
          = (handler ctx req w).2.klog.length + 1 ↔ (handler ctx req w).1.2 ≠ none) ∧
      ((logErr ctx req info handler w).2 = (handler ctx req w).2
          ↔ (handler ctx req w).1.2 = none) := by
  unfold logErr
  rcases hh : handler ctx req w with ⟨⟨resp, err⟩, w1⟩
  cases err with
  | none => simp
  | some e =>
    refine ⟨by simp [klogErrorf], by simp [klogErrorf], ?_⟩
    simp only [klogErrorf, reduceCtorEq, iff_false]
    intro hw
    have hlen := congrArg (fun x : World => x.klog.length) hw
    simp at hlen

/-- The interception stage on the sample handler: a failing call leaves the handler's
record followed by one error record, a successful call leaves the handler's record only. -/
theorem logErr_sample :
    logErr () 0 () sampleHandler World.init
        = ((1, some ⟨"boom"⟩),
            ⟨[⟨Severity.info, "handling", []⟩,
              ⟨Severity.error, "GRPC error: %v", [LogArg.err ⟨"boom"⟩]⟩], [], []⟩) ∧
      logErr () 4 () sampleHandler World.init
        = ((5, none), ⟨[⟨Severity.info, "handling", []⟩], [], []⟩) :=
  ⟨rfl, rfl⟩

/-! ## `Stop` -/

/-- C10, as the code has it: `Stop` never changes the Driver struct, whatever its state,
so the in-flight registry is untouched; and on a Driver whose `srv` points at a server,
`Stop` comes back without a panic after one record `Stopping server` and one call of the
immediate `Stop` (not `GracefulStop`) on that server, which is thereby marked stopped while
every other server object is left alone. -/
theorem Stop_with_server :
    (∀ (d : Driver) (w : World), (Stop d w).2.1 = d) ∧
      ∀ (d : Driver) (w : World) (p : Nat), d.srv = some p →
        Stop d w =
            (Except.ok (), d,
              { klog := w.klog ++ [⟨Severity.info, "Stopping server", []⟩]
                calls := w.calls ++ [Call.stop p]
                servers := modifyServer p (fun s => { s with stopped := true }) w.servers }) ∧
          (∀ s, w.servers[p]? = some s →
            (Stop d w).2.2.servers[p]? = some { s with stopped := true }) ∧
          (∀ q, q ≠ p → (Stop d w).2.2.servers[q]? = w.servers[q]?) := by
  refine ⟨?_, ?_⟩
  · intro d w
    simp [Stop]
  · intro d w p hsrv
    have h : Stop d w =
        (Except.ok (), d,
          { klog := w.klog ++ [⟨Severity.info, "Stopping server", []⟩]
            calls := w.calls ++ [Call.stop p]
            servers := modifyServer p (fun s => { s with stopped := true }) w.servers }) := by
      simp [Stop, grpcStop, hsrv, klogInfof]
    refine ⟨h, ?_, ?_⟩
    · intro s hs
      rw [h]
      exact modifyServer_getElem p _ w.servers s (by simpa [klogInfof] using hs)
    · intro q hq
      rw [h]
      exact modifyServer_getElem_ne p q _ w.servers hq

/-- C10 on a Driver whose `srv` points at the only server of the world. -/
theorem Stop_with_server_witness :
    ({ sampleDriver "unix:///tmp/csi.sock" with srv := some 0 } : Driver).srv = some 0 ∧
      Stop { sampleDriver "unix:///tmp/csi.sock" with srv := some 0 }
          ⟨[], [], [⟨[UnaryInterceptor.logErr], [(Role.identity, 7)], false⟩]⟩
        = (Except.ok (), { sampleDriver "unix:///tmp/csi.sock" with srv := some 0 },
            ⟨[⟨Severity.info, "Stopping server", []⟩], [Call.stop 0],
              [⟨[UnaryInterceptor.logErr], [(Role.identity, 7)], true⟩]⟩) :=
  ⟨rfl, (Stop_with_server.2 { sampleDriver "unix:///tmp/csi.sock" with srv := some 0 }
    ⟨[], [], [⟨[UnaryInterceptor.logErr], [(Role.identity, 7)], false⟩]⟩ 0 rfl).1⟩

/-- C10 fails as stated: the Driver that `NewDriver` returns has `srv` unset, and `Stop`
on it panics with a nil pointer dereference; the same happens after a `Run` that failed at
parsing and after a `Run` that failed at binding, since both leave `srv` unset. -/
theorem Stop_without_server_panics :
    NewDriver sampleEnv "unix:///tmp/csi.sock" = some (sampleDriver "unix:///tmp/csi.sock") ∧
      (sampleDriver "unix:///tmp/csi.sock").srv = none ∧
      (Stop (sampleDriver "unix:///tmp/csi.sock") World.init).1
        = Except.error Panic.nilDereference ∧
      (Stop (Run sampleEnv 1 (sampleDriver "bogus-no-scheme") World.init).2.1
          (Run sampleEnv 1 (sampleDriver "bogus-no-scheme") World.init).2.2).1
        = Except.error Panic.nilDereference ∧
      (Stop (Run sampleEnv 1 (sampleDriver "tcp://0.0.0.0:10000") World.init).2.1
          (Run sampleEnv 1 (sampleDriver "tcp://0.0.0.0:10000") World.init).2.2).1
        = Except.error Panic.nilDereference :=
  ⟨rfl, rfl, rfl, rfl, rfl⟩

/-! ## The in-flight registry -/

theorem present_iff (db : InFlight) (key : String) : db.present key = true ↔ key ∈ db.keys := by
  simp [InFlight.present]

theorem present_eq_false_iff (db : InFlight) (key : String) :
    db.present key = false ↔ key ∉ db.keys := by
  simp [InFlight.present]

theorem Insert_fst (db : InFlight) (key : String) :
    (db.Insert key).1 = !db.present key := by
  unfold InFlight.Insert InFlight.present
  by_cases h : key ∈ db.keys <;> simp [h]

theorem present_Insert (db : InFlight) (key j : String) :
    (db.Insert key).2.present j = (decide (j = key) || db.present j) := by
  unfold InFlight.Insert InFlight.present
  by_cases h : key ∈ db.keys
  · by_cases hj : j = key
    · subst hj
      simp [h]
    · simp [h, hj]
  · simp [h]

theorem present_Delete (db : InFlight) (key j : String) :
    (db.Delete key).present j = (decide (j ≠ key) && db.present j) := by
  unfold InFlight.Delete InFlight.present
  by_cases hj : j = key
  · subst hj
    simp
  · by_cases hm : j ∈ db.keys <;> simp [hj, hm, List.mem_filter]

theorem present_step_of_ne_delete (db : InFlight) (key : String) (op : RegistryOp)
    (hop : op ≠ RegistryOp.delete key) (h : db.present key = true) :
    (db.step op).present key = true := by
  cases op with
  | insert j => simp [InFlight.step, present_Insert, h]
  | delete j =>
    have hne : key ≠ j := by
      intro hkj
      exact hop (by rw [hkj])
    simp [InFlight.step, present_Delete, h, hne]

theorem present_run_of_no_delete (key : String) (ops : List RegistryOp) :
    ∀ db : InFlight, (∀ op ∈ ops, op ≠ RegistryOp.delete key) → db.present key = true →
      (db.run ops).present key = true := by
  induction ops with
  | nil =>
    intro db _ h
    exact h
  | cons op rest ih =>
    intro db hops h
    have hstep := present_step_of_ne_delete db key op (hops op (List.mem_cons_self _ _)) h
    exact ih (db.step op) (fun o ho => hops o (List.mem_cons_of_mem _ ho)) hstep

theorem absent_step_of_ne_insert (db : InFlight) (key : String) (op : RegistryOp)
    (hop : op ≠ RegistryOp.insert key) (h : db.present key = false) :
    (db.step op).present key = false := by
  cases op with
  | insert j =>
    have hne : key ≠ j := by
      intro hkj
      exact hop (by rw [hkj])
    simp [InFlight.step, present_Insert, h, hne]
  | delete j => simp [InFlight.step, present_Delete, h]

theorem absent_run_of_no_insert (key : String) (ops : List RegistryOp) :
    ∀ db : InFlight, (∀ op ∈ ops, op ≠ RegistryOp.insert key) → db.present key = false →
      (db.run ops).present key = false := by
  induction ops with
  | nil =>
    intro db _ h
    exact h
  | cons op rest ih =>
    intro db hops h
    have hstep := absent_step_of_ne_insert db key op (hops op (List.mem_cons_self _ _)) h
    exact ih (db.step op) (fun o ho => hops o (List.mem_cons_of_mem _ ho)) hstep

theorem Delete_of_absent (db : InFlight) (key : String) (h : db.present key = false) :
    db.Delete key = db := by
  have hk : key ∉ db.keys := (present_eq_false_iff db key).1 h
  cases db with
  | mk keys =>
    simp only [InFlight.Delete, InFlight.mk.injEq, List.filter_eq_self]
    intro a ha
    have : a ≠ key := by
      intro hak
      exact hk (hak ▸ ha)
    simp [this]

/-- C6, as the registry has it: `Insert(k)` returns true exactly when `k` was absent; after
it `k` is present and every other key is where it was; when `k` was present it returns
false and the registry is unchanged.  Of two `Insert(k)` calls with no `Delete(k)` between
them the second is always denied, so at most one returns true, and exactly one does when
`k` was absent before the first. -/
theorem Insert_admits_absent_only (db : InFlight) (k : String) :
    ((db.Insert k).1 = true ↔ db.present k = false) ∧
      (db.Insert k).2.present k = true ∧
      (∀ j, j ≠ k → (db.Insert k).2.present j = db.present j) ∧
      (db.present k = true → db.Insert k = (false, db)) ∧
      (∀ ops : List RegistryOp, (∀ op ∈ ops, op ≠ RegistryOp.delete k) →
        (((db.Insert k).2.run ops).Insert k).1 = false ∧
        (db.present k = false →
          (db.Insert k).1 = true ∧ (((db.Insert k).2.run ops).Insert k).1 = false)) := by
  refine ⟨?_, ?_, ?_, ?_, ?_⟩
  · rw [Insert_fst]
    cases db.present k <;> simp
  · simp [present_Insert]
  · intro j hj
    simp [present_Insert, hj]
  · intro h
    have hk : k ∈ db.keys := (present_iff db k).1 h
    simp [InFlight.Insert, hk]
  · intro ops hops
    have hsecond : (((db.Insert k).2.run ops).Insert k).1 = false := by
      rw [Insert_fst, present_run_of_no_delete k ops (db.Insert k).2 hops
        (by simp [present_Insert])]
      rfl
    refine ⟨hsecond, ?_⟩
    intro habs
    refine ⟨?_, hsecond⟩
    rw [Insert_fst, habs]
    rfl

/-- C6 on a registry holding `vol-9`: `vol-123` is admitted once and denied the second time, with operations on other keys in between. -/
theorem Insert_admits_absent_only_witness :
    (((⟨["vol-9"]⟩ : InFlight).Insert "vol-123").1 = true) ∧
      (((((⟨["vol-9"]⟩ : InFlight).Insert "vol-123").2.run
        [RegistryOp.insert "vol-7", RegistryOp.delete "vol-9"]).Insert "vol-123").1 = false) :=
  ((Insert_admits_absent_only ⟨["vol-9"]⟩ "vol-123").2.2.2.2
    [RegistryOp.insert "vol-7", RegistryOp.delete "vol-9"] (by decide)).2 (by decide)

/-- C6 fails as stated: once `vol-123` has been claimed on a new registry, two further
`Insert` calls for `vol-123` with no `Delete` between them both return false, so it is not
the case that exactly one of them returns true. -/
theorem Insert_twice_on_present_key :
    (NewInFlight.Insert "vol-123").2 = ⟨["vol-123"]⟩ ∧
      ((NewInFlight.Insert "vol-123").2.Insert "vol-123").1 = false ∧
      (((NewInFlight.Insert "vol-123").2.Insert "vol-123").2.Insert "vol-123").1 = false := by
  decide

/-- C7: `Delete(k)` leaves `k` absent and every other key where it was; when `k` was
already absent the registry is unchanged; and deleting twice is the same as deleting
once.  `Delete` returns the registry alone, it has no error to give. -/
theorem Delete_removes_key_only (db : InFlight) (k : String) :
    (db.Delete k).present k = false ∧
      (∀ j, j ≠ k → (db.Delete k).present j = db.present j) ∧
      (db.present k = false → db.Delete k = db) ∧
      (db.Delete k).Delete k = db.Delete k := by
  refine ⟨?_, ?_, ?_, ?_⟩
  · simp [present_Delete]
  · intro j hj
    simp [present_Delete, hj]
  · exact Delete_of_absent db k
  · exact Delete_of_absent (db.Delete k) k (by simp [present_Delete])

/-- C7 on a registry holding `vol-9`: deleting the absent `vol-123` changes nothing. -/
theorem Delete_removes_key_only_witness :
    (⟨["vol-9"]⟩ : InFlight).Delete "vol-123" = ⟨["vol-9"]⟩ :=
  (Delete_removes_key_only ⟨["vol-9"]⟩ "vol-123").2.2.1 (by decide)

/-- C8: whatever the registry held before, an `Insert(k)` that comes after a `Delete(k)`
with no other `Insert(k)` in between returns true; and on a registry where `k` is absent,
`Insert(k)`, `Delete(k)`, `Insert(k)` returns true both times. -/
theorem Insert_after_Delete_admits (db : InFlight) (k : String) :
    (∀ ops : List RegistryOp, (∀ op ∈ ops, op ≠ RegistryOp.insert k) →
        (((db.Delete k).run ops).Insert k).1 = true) ∧
      (db.present k = false →
        (db.Insert k).1 = true ∧ (((db.Insert k).2.Delete k).Insert k).1 = true) := by
  refine ⟨?_, ?_⟩
  · intro ops hops
    rw [Insert_fst, absent_run_of_no_insert k ops (db.Delete k) hops
      (by simp [present_Delete])]
    rfl
  · intro habs
    refine ⟨?_, ?_⟩
    · rw [Insert_fst, habs]
      rfl
    · rw [Insert_fst, present_Delete]
      simp

/-- C8 on small registries: `vol-123` is admitted after its release. -/
theorem Insert_after_Delete_admits_witness :
    ((((⟨["vol-123", "vol-9"]⟩ : InFlight).Delete "vol-123").run
        [RegistryOp.delete "vol-9", RegistryOp.insert "vol-7"]).Insert "vol-123").1 = true ∧
      ((⟨["vol-9"]⟩ : InFlight).Insert "vol-123").1 = true ∧
      ((((⟨["vol-9"]⟩ : InFlight).Insert "vol-123").2.Delete "vol-123").Insert "vol-123").1
        = true :=
  ⟨(Insert_after_Delete_admits ⟨["vol-123", "vol-9"]⟩ "vol-123").1
      [RegistryOp.delete "vol-9", RegistryOp.insert "vol-7"] (by decide),
    (Insert_after_Delete_admits ⟨["vol-9"]⟩ "vol-123").2 (by decide)⟩

/-! ## The endpoint parser -/

theorem startsWith_iff (p l : List Char) : startsWith p l = true ↔ p <+: l := by
  induction p generalizing l with
  | nil => simp [startsWith]
  | cons a p ih =>
    cases l with
    | nil => simp [startsWith]
    | cons b l => simp [startsWith, ih, List.cons_prefix_cons]

theorem cutAt_some_eq (sep : List Char) (l : List Char) :
    ∀ before after, cutAt sep l = some (before, after) → l = before ++ sep ++ after := by
  induction l with
  | nil =>
    intro before after h
    unfold cutAt at h
    split at h
    · rename_i hs
      simp only [Option.some.injEq, Prod.mk.injEq] at h
      simp [← h.1, ← h.2, hs]
    · cases h
  | cons c cs ih =>
    intro before after h
    unfold cutAt at h
    split at h
    · rename_i hs
      simp only [Option.some.injEq, Prod.mk.injEq] at h
      rw [← h.1, ← h.2]
      have hp := (startsWith_iff sep (c :: cs)).1 hs
      simpa using (List.prefix_iff_eq_append.1 hp).symm
    · cases hc : cutAt sep cs with
      | none => simp [hc] at h
      | some r =>
        rcases r with ⟨b, a⟩
        simp only [hc, Option.some.injEq, Prod.mk.injEq] at h
        rw [← h.1, ← h.2, ih b a hc]
        simp

theorem cutAt_none_no_occurrence (sep : List Char) (l : List Char) :
    cutAt sep l = none → ¬ sep <:+: l := by
  induction l with
  | nil =>
    intro h hin
    unfold cutAt at h
    split at h
    · cases h
    · rename_i hs
      exact hs (List.eq_nil_of_infix_nil hin)
  | cons c cs ih =>
    intro h hin
    unfold cutAt at h
    split at h
    · cases h
    · rename_i hs
      cases hc : cutAt sep cs with
      | some r => simp [hc] at h
      | none =>
        rcases List.infix_cons_iff.1 hin with hp | hi
        · exact hs ((startsWith_iff sep (c :: cs)).2 hp)
        · exact ih hc hi

theorem cutAt_isSome_iff (sep : List Char) (l : List Char) :
    (cutAt sep l).isSome = true ↔ sep <:+: l := by
  constructor
  · intro h
    cases hc : cutAt sep l with
    | none => simp [hc] at h
    | some r =>
      rcases r with ⟨b, a⟩
      exact ⟨b, a, (cutAt_some_eq sep l b a hc).symm⟩
  · intro h
    cases hc : cutAt sep l with
    | none => exact absurd h (cutAt_none_no_occurrence sep l hc)
    | some r => rfl

theorem endpoint_data (s a : String) :
    (s ++ "://" ++ a).data = s.data ++ endpointSep ++ a.data := by
  simp [String.data_append, endpointSep]

theorem cutAt_recognised (s : String) (hs : s ∈ recognisedSchemes) (r : List Char) :
    cutAt endpointSep (s.data ++ endpointSep ++ r) = some (s.data, r) := by
  simp only [recognisedSchemes, List.mem_cons, List.mem_singleton, List.not_mem_nil,
    or_false] at hs
  rcases hs with rfl | rfl
  · simp [cutAt, startsWith, endpointSep]
  · simp [cutAt, startsWith, endpointSep]

theorem ParseEndpoint_error_eq (ep : String) (e : GoError)
    (h : ParseEndpoint ep = Except.error e) : e = InvalidEndpoint := by
  unfold ParseEndpoint at h
  split at h
  · cases h
    rfl
  · split at h
    · cases h
      rfl
    · split at h
      · cases h
      · cases h
        rfl

theorem ParseEndpoint_ok_iff (ep s a : String) :
    ParseEndpoint ep = Except.ok (s, a) ↔
      ep = s ++ "://" ++ a ∧ s ∈ recognisedSchemes ∧ ¬ endpointSep <:+: a.data := by
  constructor
  · intro h
    unfold ParseEndpoint at h
    split at h
    · cases h
    · rename_i scheme addr hcut
      split at h
      · cases h
      · rename_i hrest
        split at h
        · rename_i hscheme
          simp only [Except.ok.injEq, Prod.mk.injEq] at h
          rw [← h.1, ← h.2]
          refine ⟨?_, hscheme, ?_⟩
          · apply String.ext
            rw [endpoint_data]
            exact cutAt_some_eq endpointSep ep.data scheme addr hcut
          · intro hin
            exact hrest ((cutAt_isSome_iff endpointSep addr).2 hin)
        · cases h
  · rintro ⟨hep, hs, ha⟩
    have hcut : cutAt endpointSep ep.data = some (s.data, a.data) := by
      rw [hep, endpoint_data]
      exact cutAt_recognised s hs a.data
    have hrest : ¬ (cutAt endpointSep a.data).isSome = true := fun h =>
      ha ((cutAt_isSome_iff endpointSep a.data).1 h)
    unfold ParseEndpoint
    simp [hcut, hrest, hs]

theorem ParseEndpoint_three_parts_of_recognised (s a b : String)
    (hs : s ∈ recognisedSchemes) :
    ParseEndpoint (s ++ "://" ++ (a ++ "://" ++ b)) = Except.error InvalidEndpoint := by
  have hcut : cutAt endpointSep (s ++ "://" ++ (a ++ "://" ++ b)).data
      = some (s.data, (a ++ "://" ++ b).data) := by
    rw [endpoint_data]
    exact cutAt_recognised s hs _
  have hrest : (cutAt endpointSep (a ++ "://" ++ b).data).isSome = true := by
    rw [cutAt_isSome_iff, endpoint_data]
    exact ⟨a.data, b.data, rfl⟩
  unfold ParseEndpoint
  rw [hcut]
  exact if_pos hrest

theorem ParseEndpoint_unrecognised (s a : String) (hs : s ∉ recognisedSchemes) :
    ParseEndpoint (s ++ "://" ++ a) = Except.error InvalidEndpoint := by
  cases h : ParseEndpoint (s ++ "://" ++ a) with
  | error e => rw [ParseEndpoint_error_eq _ e h]
  | ok r =>
    exfalso
    rcases r with ⟨s0, a0⟩
    obtain ⟨hep, hs0, ha0⟩ := (ParseEndpoint_ok_iff _ s0 a0).1 h
    have hd := congrArg String.data hep
    rw [endpoint_data, endpoint_data] at hd
    rcases s with ⟨l⟩
    simp only [recognisedSchemes, List.mem_cons, List.mem_singleton, List.not_mem_nil,
      or_false] at hs0 hs
    rcases hs0 with rfl | rfl
    · rcases l with _ | ⟨c1, _ | ⟨c2, _ | ⟨c3, _ | ⟨c4, _ | ⟨c5, _ | ⟨c6, _ | ⟨c7, l⟩⟩⟩⟩⟩⟩⟩
      all_goals simp [endpointSep] at hd
      · apply hs
        left
        apply String.ext
        simp [hd]
      · apply ha0
        refine ⟨l, a.data, ?_⟩
        simp [endpointSep, hd.2.2.2.2.2.2.2]
    · rcases l with _ | ⟨c1, _ | ⟨c2, _ | ⟨c3, _ | ⟨c4, _ | ⟨c5, _ | ⟨c6, l⟩⟩⟩⟩⟩⟩
      all_goals simp [endpointSep] at hd
      · apply hs
        right
        apply String.ext
        simp [hd]
      · apply ha0
        refine ⟨l, a.data, ?_⟩
        simp [endpointSep, hd.2.2.2.2.2.2]

/-- C9: the endpoint parser maps `unix:///tmp/csi.sock` to scheme `unix` and address
`/tmp/csi.sock`, maps `tcp://0.0.0.0:10000` to scheme `tcp` and address `0.0.0.0:10000`, and
fails with `InvalidEndpoint` on `bogus-no-scheme`.  In general it succeeds with `(s, a)`
exactly on the strings `s://a` with `s` a recognised scheme and no further separator in
`a`, and every failure is `InvalidEndpoint`: so it fails on a string without separator, on
a string with more than one separator, and on a string whose scheme is not recognised. -/
theorem ParseEndpoint_accepts_exactly_scheme_and_address :
    ParseEndpoint "unix:///tmp/csi.sock" = Except.ok ("unix", "/tmp/csi.sock") ∧
      ParseEndpoint "tcp://0.0.0.0:10000" = Except.ok ("tcp", "0.0.0.0:10000") ∧
      ParseEndpoint "bogus-no-scheme" = Except.error InvalidEndpoint ∧
      (∀ ep s a : String, ParseEndpoint ep = Except.ok (s, a) ↔
        ep = s ++ "://" ++ a ∧ s ∈ recognisedSchemes ∧ ¬ endpointSep <:+: a.data) ∧
      (∀ ep : String,
        (¬ ∃ s a : String,
          ep = s ++ "://" ++ a ∧ s ∈ recognisedSchemes ∧ ¬ endpointSep <:+: a.data) →
        ParseEndpoint ep = Except.error InvalidEndpoint) ∧
      (∀ ep : String, (¬ ∃ s a : String, ep = s ++ "://" ++ a) →
        ParseEndpoint ep = Except.error InvalidEndpoint) ∧
      (∀ s a b : String,
        ParseEndpoint (s ++ "://" ++ (a ++ "://" ++ b)) = Except.error InvalidEndpoint) ∧
      (∀ s a : String, s ∉ recognisedSchemes →
        ParseEndpoint (s ++ "://" ++ a) = Except.error InvalidEndpoint) := by
  have hfail : ∀ ep : String,
      (¬ ∃ s a : String,
        ep = s ++ "://" ++ a ∧ s ∈ recognisedSchemes ∧ ¬ endpointSep <:+: a.data) →
      ParseEndpoint ep = Except.error InvalidEndpoint := by
    intro ep hno
    cases h : ParseEndpoint ep with
    | error e => rw [ParseEndpoint_error_eq ep e h]
    | ok r =>
      rcases r with ⟨s, a⟩
      exact absurd ⟨s, a, (ParseEndpoint_ok_iff ep s a).1 h⟩ hno
  refine ⟨rfl, rfl, rfl, ParseEndpoint_ok_iff, hfail, ?_, ?_, ParseEndpoint_unrecognised⟩
  · intro ep hno
    apply hfail
    rintro ⟨s, a, hep, _⟩
    exact hno ⟨s, a, hep⟩
  · intro s a b
    by_cases hs : s ∈ recognisedSchemes
    · exact ParseEndpoint_three_parts_of_recognised s a b hs
    · exact ParseEndpoint_unrecognised s _ hs

/-- C9 on `http://example.com`, whose scheme is not recognised, and on `unix:///tmp/csi.sock`. -/
theorem ParseEndpoint_accepts_exactly_scheme_and_address_witness :
    ParseEndpoint "http://example.com" = Except.error InvalidEndpoint ∧
      ParseEndpoint "unix:///tmp/csi.sock" = Except.ok ("unix", "/tmp/csi.sock") :=
  ⟨ParseEndpoint_accepts_exactly_scheme_and_address.2.2.2.2.2.2.2 "http" "example.com"
      (by decide),
    (ParseEndpoint_accepts_exactly_scheme_and_address.2.2.2.1
      "unix:///tmp/csi.sock" "unix" "/tmp/csi.sock").2
      ⟨rfl, by decide, by
        intro h
        have h2 := (cutAt_isSome_iff endpointSep ("/tmp/csi.sock" : String).data).2 h
        exact absurd h2 (by decide)⟩⟩

end FsxCsi
